import Mathlib

/-!
Verification of the medbook extraction pipeline (packages/server/src/scraper):
a shallow embedding of `medium-scraper.ts`, `html-cleaner.ts`,
`image-downloader.ts` and `constants.ts` into Lean, followed by theorems
about the embedded functions.

Modelling conventions:
* The HTML document (cheerio's parse result) is a forest of `Node`s; cheerio
  selector queries are embedded for exactly the selector strings appearing in
  `constants.ts` and in the scraper code.
* JavaScript strings are modelled as Lean `String`; `toLowerCase`, `trim`,
  `startsWith`, `endsWith`, substring search and `.length` are modelled by
  list-level functions over `String.data`.
* Network I/O (`fetch`) is modelled by oracle parameters describing the
  outcome of each request; timers/cancellation are part of the outcome.
* JavaScript truthiness of `string | undefined` values (`x || y`, `if (x)`)
  is embedded by `jsTruthy` / `jsOr`.
-/

namespace Medbook

/-- Error codes of the scraper (`types.ts`, `ErrorCode`). -/
inductive ErrorCode where
  | INVALID_URL
  | TIMEOUT
  | NOT_FOUND
  | PAYWALL
  | NETWORK_ERROR
  | PARSE_ERROR
deriving DecidableEq, Repr

/-! ### String helpers (JS semantics, list-level) -/

/-- JS `String.prototype.toLowerCase`, modelled character-wise (ASCII). -/
def lowerStr (s : String) : String := ⟨s.data.map Char.toLower⟩

/-- JS `String.prototype.trim` (both ends, whitespace). -/
def trimStr (s : String) : String :=
  ⟨(s.data.dropWhile Char.isWhitespace).reverse.dropWhile Char.isWhitespace |>.reverse⟩

/-- JS `String.prototype.startsWith`. -/
def startsWithStr (s pat : String) : Bool := pat.data.isPrefixOf s.data

/-- JS `String.prototype.endsWith`. -/
def endsWithStr (s pat : String) : Bool := pat.data.isSuffixOf s.data

/-- Does `pat` occur as a contiguous sublist of `l`? -/
def hasSubList (pat : List Char) : List Char → Bool
  | [] => pat.isEmpty
  | c :: cs => pat.isPrefixOf (c :: cs) || hasSubList pat cs

/-- JS `String.prototype.includes`. -/
def hasSubstr (s pat : String) : Bool := hasSubList pat.data s.data

/-- JS `.length` of a string (code-unit count modelled as character count). -/
def strLen (s : String) : Nat := s.data.length

/-- Split a character list at every character satisfying `p` (the separators
are dropped; empty pieces are kept). -/
def splitByAux (p : Char → Bool) : List Char → List Char → List String
  | [], acc => [⟨acc.reverse⟩]
  | c :: cs, acc =>
    if p c then ⟨acc.reverse⟩ :: splitByAux p cs []
    else splitByAux p cs (c :: acc)

/-- Split a string at every character satisfying `p`. -/
def splitBy (s : String) (p : Char → Bool) : List String := splitByAux p s.data []

/-- JS truthiness of a `string | undefined` value. -/
def jsTruthy : Option String → Bool
  | some s => s ≠ ""
  | none => false

/-- JS `a || b` on `string | undefined` values. -/
def jsOr (a b : Option String) : Option String :=
  if jsTruthy a then a else b

/-- JS `x || undefined` (used for `alt: alt || undefined`). -/
def jsOrUndef (a : Option String) : Option String :=
  if jsTruthy a then a else none

/-! ### The document model -/

/-! A parsed HTML node: an element with a tag name, an attribute list and
children, or a text node.  This models the DOM that cheerio exposes.  The
children are a `NodeList` (a mutually defined list type) so that the tree
functions below are structurally recursive and evaluate by `rfl`/`decide`. -/
mutual
inductive Node where
  | elem (tag : String) (attrs : List (String × String)) (children : NodeList)
  | text (s : String)
inductive NodeList where
  | nil
  | cons (head : Node) (tail : NodeList)
end

/-- Turn an ordinary list of nodes into a `NodeList` (used to write document
literals). -/
def NodeList.ofList : List Node → NodeList
  | [] => .nil
  | n :: ns => .cons n (NodeList.ofList ns)

/-- Element constructor taking the children as an ordinary list. -/
def el (tag : String) (attrs : List (String × String)) (children : List Node) : Node :=
  .elem tag attrs (NodeList.ofList children)

/-- Text-node constructor. -/
def tx (s : String) : Node := .text s

/-- Attribute lookup (`$el.attr(name)`). -/
def getAttr (attrs : List (String × String)) (n : String) : Option String :=
  (attrs.find? (fun p => p.1 = n)).map (fun p => p.2)

/-- Attribute update-or-insert (`$el.attr(name, value)`). -/
def setAttr (attrs : List (String × String)) (n v : String) : List (String × String) :=
  if attrs.any (fun p => p.1 = n) then
    attrs.map (fun p => if p.1 = n then (n, v) else p)
  else attrs ++ [(n, v)]

/-! Concatenated text content of a node / of a forest (cheerio `.text()`). -/
mutual
def nodeText : Node → String
  | .text s => s
  | .elem _ _ c => nodesText c
def nodesText : NodeList → String
  | .nil => ""
  | .cons n ns => nodeText n ++ nodesText ns
end

/-! Does the node / forest contain an `img` element among elements of the
subtree (cheerio `.find('img').length > 0` checks strict descendants, but
the callers below only apply this to children forests)? -/
mutual
def nodeHasImg : Node → Bool
  | .text _ => false
  | .elem t _ c => (t = "img") || nodesHaveImg c
def nodesHaveImg : NodeList → Bool
  | .nil => false
  | .cons n ns => nodeHasImg n || nodesHaveImg ns
end

/-! ### Selectors

`constants.ts` stores selectors as strings, and the scraper both matches
them against the document (via cheerio) and inspects the selector *string*
(`selector.startsWith('meta')`, `selector.includes('time')`).  We therefore
keep selectors as strings and give the cheerio interpretation of exactly the
selector strings used by the scraper via `selOf`. -/

/-- The fragment of CSS simple selectors the scraper uses. -/
inductive SimpleSel where
  | tagName (t : String)
  | tagAttrPresent (t a : String)
  | tagAttrEq (t a v : String)
  | tagAttrSub (t a v : String)
  | attrEq (a v : String)
  | attrSub (a v : String)
  | classWord (c : String)
deriving DecidableEq, Repr

/-- A selector: simple, or a descendant combination (`article section`). -/
inductive Sel where
  | simple (s : SimpleSel)
  | descendant (anc desc : SimpleSel)
deriving DecidableEq, Repr

/-- Does an element with tag `t` and attributes `attrs` match a simple selector? -/
def matchesSimple : SimpleSel → String → List (String × String) → Bool
  | .tagName t', t, _ => t = t'
  | .tagAttrPresent t' a, t, attrs => t = t' && (getAttr attrs a).isSome
  | .tagAttrEq t' a v, t, attrs => t = t' && getAttr attrs a = some v
  | .tagAttrSub t' a v, t, attrs =>
    t = t' && (match getAttr attrs a with
               | some s => hasSubstr s v
               | none => false)
  | .attrEq a v, _, attrs => getAttr attrs a = some v
  | .attrSub a v, _, attrs =>
    (match getAttr attrs a with
     | some s => hasSubstr s v
     | none => false)
  | .classWord c, _, attrs =>
    (match getAttr attrs "class" with
     | some s => (splitBy s Char.isWhitespace).contains c
     | none => false)

/-! All elements of the node / forest matching a simple selector, in
document order. -/
mutual
def querySimpleN (s : SimpleSel) : Node → List Node
  | .text _ => []
  | .elem t a c =>
    (if matchesSimple s t a then [.elem t a c] else []) ++ querySimpleL s c
def querySimpleL (s : SimpleSel) : NodeList → List Node
  | .nil => []
  | .cons n ns => querySimpleN s n ++ querySimpleL s ns
end

/-! Elements matching `desc` that have a strict ancestor matching `anc`;
`under` records whether an ancestor matching `anc` has been seen. -/
mutual
def queryDescN (anc desc : SimpleSel) (under : Bool) : Node → List Node
  | .text _ => []
  | .elem t a c =>
    (if under && matchesSimple desc t a then [.elem t a c] else [])
      ++ queryDescL anc desc (under || matchesSimple anc t a) c
def queryDescL (anc desc : SimpleSel) (under : Bool) : NodeList → List Node
  | .nil => []
  | .cons n ns => queryDescN anc desc under n ++ queryDescL anc desc under ns
end

/-- Run a selector over the document forest (cheerio `$(sel)`). -/
def querySel : Sel → NodeList → List Node
  | .simple s, doc => querySimpleL s doc
  | .descendant anc desc, doc => queryDescL anc desc false doc

/-- The cheerio interpretation of each selector string used by the scraper
(`constants.ts` plus the literal `'body'`/`'article'` queries); any other
string is interpreted as a plain tag selector. -/
def selOf (s : String) : Sel :=
  if s = "time[datetime]" then .simple (.tagAttrPresent "time" "datetime")
  else if s = "meta[property=\"article:published_time\"]" then
    .simple (.tagAttrEq "meta" "property" "article:published_time")
  else if s = "meta[name=\"description\"]" then .simple (.tagAttrEq "meta" "name" "description")
  else if s = "meta[name=\"author\"]" then .simple (.tagAttrEq "meta" "name" "author")
  else if s = "[data-testid=\"storyTitle\"]" then .simple (.attrEq "data-testid" "storyTitle")
  else if s = "[data-testid=\"storySubtitle\"]" then .simple (.attrEq "data-testid" "storySubtitle")
  else if s = "[data-testid=\"authorName\"]" then .simple (.attrEq "data-testid" "authorName")
  else if s = "[data-testid=\"storyReadTime\"]" then .simple (.attrEq "data-testid" "storyReadTime")
  else if s = "[data-testid=\"tag\"]" then .simple (.attrEq "data-testid" "tag")
  else if s = "[data-testid=\"paywall\"]" then .simple (.attrEq "data-testid" "paywall")
  else if s = "[data-testid=\"headerNav\"]" then .simple (.attrEq "data-testid" "headerNav")
  else if s = "[data-testid=\"footerNav\"]" then .simple (.attrEq "data-testid" "footerNav")
  else if s = "[rel=\"author\"]" then .simple (.attrEq "rel" "author")
  else if s = ".meteredContent" then .simple (.classWord "meteredContent")
  else if s = "[id*=\"paywall\"]" then .simple (.attrSub "id" "paywall")
  else if s = "a[href*=\"/tag/\"]" then .simple (.tagAttrSub "a" "href" "/tag/")
  else if s = "article section" then .descendant (.tagName "article") (.tagName "section")
  else if s = "[data-field=\"body\"]" then .simple (.attrEq "data-field" "body")
  else if s = "[role=\"banner\"]" then .simple (.attrEq "role" "banner")
  else if s = "[role=\"navigation\"]" then .simple (.attrEq "role" "navigation")
  else if s = "[role=\"complementary\"]" then .simple (.attrEq "role" "complementary")
  else if s = "[class*=\"share\"]" then .simple (.attrSub "class" "share")
  else if s = "[class*=\"social\"]" then .simple (.attrSub "class" "social")
  else if s = "[class*=\"comment\"]" then .simple (.attrSub "class" "comment")
  else if s = "[class*=\"related\"]" then .simple (.attrSub "class" "related")
  else if s = "[class*=\"recommend\"]" then .simple (.attrSub "class" "recommend")
  else if s = "[class*=\"follow\"]" then .simple (.attrSub "class" "follow")
  else if s = "[class*=\"subscribe\"]" then .simple (.attrSub "class" "subscribe")
  else if s = "[class*=\"newsletter\"]" then .simple (.attrSub "class" "newsletter")
  else if s = "[class*=\"ad-\"]" then .simple (.attrSub "class" "ad-")
  else if s = "[class*=\"ads-\"]" then .simple (.attrSub "class" "ads-")
  else if s = "[class*=\"promo\"]" then .simple (.attrSub "class" "promo")
  else .simple (.tagName s)

/-- `$(selectorString)` over the document. -/
def queryStr (s : String) (doc : NodeList) : List Node := querySel (selOf s) doc

/-- Tag of an element node (empty for text nodes). -/
def Node.tagOf : Node → String
  | .elem t _ _ => t
  | .text _ => ""

/-- Attributes of an element node. -/
def Node.attrsOf : Node → List (String × String)
  | .elem _ a _ => a
  | .text _ => []

/-- Children of an element node. -/
def Node.childrenOf : Node → NodeList
  | .elem _ _ c => c
  | .text _ => .nil

/-! ### Constants (`constants.ts`) -/

/-- `TIMEOUT_MS`. -/
def TIMEOUT_MS : Nat := 30000

/-- `MEDIUM_DOMAINS`. -/
def MEDIUM_DOMAINS : List String :=
  ["medium.com", "towardsdatascience.com", "betterprogramming.pub",
   "levelup.gitconnected.com", "javascript.plainenglish.io", "blog.devgenius.io",
   "uxdesign.cc", "betterhumans.pub", "entrepreneurshandbook.co",
   "writingcooperative.com", "psiloveyou.xyz", "codeburst.io", "hackernoon.com",
   "itnext.io", "blog.bitsrc.io", "bootcamp.uxdesign.cc"]

/-- `CSS_SELECTORS.title`. -/
def titleSelectors : List String := ["h1", "[data-testid=\"storyTitle\"]"]

/-- `CSS_SELECTORS.subtitle`. -/
def subtitleSelectors : List String :=
  ["h2", "[data-testid=\"storySubtitle\"]", "meta[name=\"description\"]"]

/-- `CSS_SELECTORS.author`. -/
def authorSelectors : List String :=
  ["[data-testid=\"authorName\"]", "meta[name=\"author\"]", "[rel=\"author\"]"]

/-- `CSS_SELECTORS.publishedDate`. -/
def publishedDateSelectors : List String :=
  ["time[datetime]", "meta[property=\"article:published_time\"]"]

/-- `CSS_SELECTORS.readingTime`. -/
def readingTimeSelectors : List String := ["[data-testid=\"storyReadTime\"]"]

/-- `CSS_SELECTORS.tags`. -/
def tagSelectors : List String := ["[data-testid=\"tag\"]", "a[href*=\"/tag/\"]"]

/-- `CSS_SELECTORS.content`. -/
def contentSelectors : List String := ["article section", "[data-field=\"body\"]", "article"]

/-- `CSS_SELECTORS.paywall`. -/
def paywallSelectors : List String :=
  ["[data-testid=\"paywall\"]", ".meteredContent", "[id*=\"paywall\"]"]

/-- `ELEMENTS_TO_REMOVE`. -/
def ELEMENTS_TO_REMOVE : List String :=
  ["nav", "header", "footer", "aside", "script", "style", "noscript", "iframe",
   "svg", "button", "form", "input",
   "[data-testid=\"headerNav\"]", "[data-testid=\"footerNav\"]",
   "[role=\"banner\"]", "[role=\"navigation\"]", "[role=\"complementary\"]",
   "[class*=\"share\"]", "[class*=\"social\"]", "[class*=\"comment\"]",
   "[class*=\"related\"]", "[class*=\"recommend\"]", "[class*=\"follow\"]",
   "[class*=\"subscribe\"]", "[class*=\"newsletter\"]",
   "[class*=\"ad-\"]", "[class*=\"ads-\"]", "[class*=\"promo\"]"]

/-! ### URL safety validator (`medium-scraper.ts`, `isPrivateHost` /
`validateMediumUrl`)

`new URL(url)` (the WHATWG URL parser) is external; we model its result as
`Option ParsedUrl` (`none` = the constructor threw). -/

/-- The regex `^(\d{1,3})\.(\d{1,3})\.(\d{1,3})\.(\d{1,3})$` with the four
captured groups converted by `Number(...)`. -/
def ipv4Quad (s : String) : Option (Nat × Nat × Nat × Nat) :=
  match (splitBy s (fun c => c = '.')).map (fun part =>
      if part.length ≥ 1 ∧ part.length ≤ 3 ∧ part.data.all Char.isDigit then
        some (part.data.foldl (fun n c => n * 10 + (c.toNat - 48)) 0)
      else none) with
  | [some a, some b, some c, some d] => some (a, b, c, d)
  | _ => none

/-- `isPrivateHost` from `medium-scraper.ts`. -/
def isPrivateHost (hostname : String) : Bool :=
  let lower := lowerStr hostname
  if lower = "localhost" ∨ lower = "localhost.localdomain" then true
  else
    (match ipv4Quad lower with
     | some (a, b, _, _) =>
       a = 127 || a = 10 || (a = 172 && 16 ≤ b && b ≤ 31) || (a = 192 && b = 168)
         || (a = 169 && b = 254) || a = 0
     | none => false)
    || (lower = "::1" || lower = "[::1]")

/-- The result of `new URL(url)`: the fields the validator reads. -/
structure ParsedUrl where
  protocol : String
  hostname : String
deriving DecidableEq, Repr

/-- The `isValidDomain` check of `validateMediumUrl`: the (already
lower-cased) hostname equals an entry of `MEDIUM_DOMAINS` or ends with
`"." + entry`. -/
def isAllowedDomain (hostname : String) : Bool :=
  MEDIUM_DOMAINS.any (fun d => hostname = d || endsWithStr hostname ("." ++ d))

/-- `validateMediumUrl` from `medium-scraper.ts`, over the parse result
(`none` models the `URL` constructor throwing; the surrounding
`try`/`catch` maps that to `INVALID_URL`). -/
def validateMediumUrl (p : Option ParsedUrl) : Except ErrorCode Unit :=
  match p with
  | none => .error .INVALID_URL
  | some u =>
    let hostname := lowerStr u.hostname
    if isPrivateHost hostname then .error .INVALID_URL
    else if u.protocol ≠ "https:" then .error .INVALID_URL
    else if isAllowedDomain hostname then .ok ()
    else .error .INVALID_URL

/-! ### Bounded page fetcher (`fetchHtml`)

The single `fetch` call is external; its outcome is modelled as a value of
`FetchPageOutcome`. An `AbortError` can only arise from the 30 s timer
attached to the request's cancellation token, so `abortTimeout` models
"cancelled because the timeout expired". -/

/-- Outcome of the page `fetch`: a response with an HTTP status and body
text, an abort by the timeout's cancellation token, or any other transport
failure. -/
inductive FetchPageOutcome where
  | response (status : Nat) (body : String)
  | abortTimeout
  | transportError
deriving DecidableEq, Repr

/-- `Response.ok`: status in the inclusive range 200–299. -/
def responseOk (status : Nat) : Bool := 200 ≤ status && status ≤ 299

/-- `fetchHtml` from `medium-scraper.ts`, over the fetch outcome. -/
def fetchHtml : FetchPageOutcome → Except ErrorCode String
  | .response status body =>
    if status = 404 then .error .NOT_FOUND
    else if ¬ responseOk status then .error .NETWORK_ERROR
    else .ok body
  | .abortTimeout => .error .TIMEOUT
  | .transportError => .error .NETWORK_ERROR

/-! ### Paywall detector (`checkPaywall`) -/

/-- Concatenated text of all elements matching a selector string
(cheerio `$(sel).text()`). -/
def textOfMatches (s : String) (doc : NodeList) : String :=
  String.join ((queryStr s doc).map nodeText)

/-- Lower-cased text of `$('body')` (`checkPaywall`). -/
def bodyTextLower (doc : NodeList) : String :=
  lowerStr (textOfMatches "body" doc)

/-- `checkPaywall` from `medium-scraper.ts`. -/
def checkPaywall (doc : NodeList) : Except ErrorCode Unit :=
  if paywallSelectors.any (fun s => 0 < (queryStr s doc).length) then
    .error .PAYWALL
  else
    let bodyText := bodyTextLower doc
    if hasSubstr bodyText "member-only story" || hasSubstr bodyText "become a member" then
      let articleContent := trimStr (textOfMatches "article" doc)
      if strLen articleContent < 500 then .error .PAYWALL else .ok ()
    else .ok ()

/-! ### Metadata extractor (`extractWithSelectors` / `extractMetadata`) -/

/-- `extractWithSelectors` from `medium-scraper.ts`: first selector whose
first match yields non-empty text (or, for `meta` selectors, a truthy
`content` attribute, returned trimmed). -/
def extractWithSelectors (doc : NodeList) : List String → Option String
  | [] => none
  | s :: rest =>
    match (queryStr s doc).head? with
    | none => extractWithSelectors doc rest
    | some el =>
      if startsWithStr s "meta" then
        match getAttr el.attrsOf "content" with
        | some c => if c ≠ "" then some (trimStr c) else extractWithSelectors doc rest
        | none => extractWithSelectors doc rest
      else
        let t := trimStr (nodeText el)
        if t ≠ "" then some t else extractWithSelectors doc rest

/-- The published-date loop of `extractMetadata`: for each selector, if it has
a match, overwrite the accumulator with the `datetime` attribute when the
selector string contains `"time"`, else with the `content` attribute when it
starts with `"meta"`; break on a non-empty value. -/
def publishedDateLoop (doc : NodeList) : List String → String → String
  | [], acc => acc
  | s :: rest, acc =>
    let acc' :=
      match (queryStr s doc).head? with
      | none => acc
      | some el =>
        if hasSubstr s "time" then (getAttr el.attrsOf "datetime").getD ""
        else if startsWithStr s "meta" then (getAttr el.attrsOf "content").getD ""
        else acc
    if acc' ≠ "" then acc' else publishedDateLoop doc rest acc'

/-- The published date of `extractMetadata`: the loop's result, defaulting to
the current instant (`new Date().toISOString()`, passed in as `now`). -/
def extractPublishedDate (doc : NodeList) (now : String) : String :=
  let pd := publishedDateLoop doc publishedDateSelectors ""
  if pd = "" then now else pd

/-- The regex match `/\d+\s*min/` (first match, greedy digits). -/
def matchMinAux : List Char → Option (List Char)
  | [] => none
  | c :: cs =>
    if c.isDigit then
      let digits := (c :: cs).takeWhile Char.isDigit
      let afterDigits := (c :: cs).dropWhile Char.isDigit
      let ws := afterDigits.takeWhile Char.isWhitespace
      let afterWs := afterDigits.dropWhile Char.isWhitespace
      if "min".data.isPrefixOf afterWs then
        some (digits ++ ws ++ "min".data)
      else matchMinAux cs
    else matchMinAux cs

/-- `readingTimeText?.match(/\d+\s*min/)?.[0]`. -/
def matchMin (s : String) : Option String := (matchMinAux s.data).map List.asString

/-- The tag-collection loop of `extractMetadata`: over the concatenated match
lists of all tag selectors, trim + lowercase each tag and push it when it is
non-empty, unseen and shorter than 50 characters. -/
def tagsLoop : List String → List String → List String
  | [], _ => []
  | s :: rest, seen =>
    let tag := lowerStr (trimStr s)
    if tag ≠ "" ∧ ¬ seen.contains tag ∧ strLen tag < 50 then
      tag :: tagsLoop rest (tag :: seen)
    else tagsLoop rest seen

/-- The texts of all tag-selector matches, in encounter order. -/
def tagTexts (doc : NodeList) : List String :=
  tagSelectors.flatMap (fun s => (queryStr s doc).map nodeText)

/-- The extracted tags (before the `length > 0` check). -/
def extractTags (doc : NodeList) : List String := tagsLoop (tagTexts doc) []

/-- The metadata part of an `Article` (`Omit<Article, 'content' | 'images'>`). -/
structure Metadata where
  url : String
  title : String
  subtitle : Option String
  author : String
  publishedDate : String
  readingTime : Option String
  tags : Option (List String)
deriving DecidableEq, Repr

/-- `extractMetadata` from `medium-scraper.ts` (`now` stands for
`new Date().toISOString()` at call time). -/
def extractMetadata (doc : NodeList) (url now : String) : Except ErrorCode Metadata :=
  let titleOpt := extractWithSelectors doc titleSelectors
  if jsTruthy titleOpt then
    let subtitle := extractWithSelectors doc subtitleSelectors
    let authorOpt := extractWithSelectors doc authorSelectors
    let author := if jsTruthy authorOpt then authorOpt.getD "" else "Unknown Author"
    let publishedDate := extractPublishedDate doc now
    let readingTime := (extractWithSelectors doc readingTimeSelectors).bind matchMin
    let tags := extractTags doc
    .ok { url := url, title := titleOpt.getD "", subtitle := subtitle, author := author,
          publishedDate := publishedDate, readingTime := readingTime,
          tags := if 0 < tags.length then some tags else none }
  else .error .PARSE_ERROR

/-! ### Content sanitizer (`html-cleaner.ts`)

`removeUnwantedElements` calls `container.find(sel).remove()` for each
selector in `ELEMENTS_TO_REMOVE` in turn.  All these selectors are simple
(matching depends only on the element's own tag and attributes), so the
sequence of removals removes exactly the elements matching at least one
selector; we embed it as one top-down filter. -/

/-- Does an element match some selector of `ELEMENTS_TO_REMOVE`? -/
def matchesRemoval (t : String) (attrs : List (String × String)) : Bool :=
  ELEMENTS_TO_REMOVE.any (fun s =>
    match selOf s with
    | .simple ss => matchesSimple ss t attrs
    | .descendant _ _ => false)

/-! The selector-removal pass of `removeUnwantedElements`. -/
mutual
def removeBySelectorsN : Node → NodeList → NodeList
  | .text s, acc => .cons (.text s) acc
  | .elem t a c, acc =>
    if matchesRemoval t a then acc
    else .cons (.elem t a (removeBySelectorsL c)) acc
def removeBySelectorsL : NodeList → NodeList
  | .nil => .nil
  | .cons n ns => removeBySelectorsN n (removeBySelectorsL ns)
end

/-- Tags skipped by the empty-element pass
(`['img', 'br', 'hr', 'input', 'meta', 'link']`). -/
def emptySkipTags : List String := ["img", "br", "hr", "input", "meta", "link"]

/-- Is the element kept by the empty-element pass?  An element is removed
when it is not a skip tag, its text content trims to the empty string and it
contains no `img` descendant.  (`container.find('*')` iterates elements in
pre-order, so each element's check sees its own subtree unmodified; the live
iteration is therefore equivalent to this local predicate.) -/
def keepNonEmpty (t : String) (c : NodeList) : Bool :=
  emptySkipTags.contains (lowerStr t) || ¬ (trimStr (nodesText c) = "" ∧ nodesHaveImg c = false)

/-! The empty-element pass of `removeUnwantedElements`. -/
mutual
def removeEmptyN : Node → NodeList → NodeList
  | .text s, acc => .cons (.text s) acc
  | .elem t a c, acc =>
    if keepNonEmpty t c then .cons (.elem t a (removeEmptyL c)) acc
    else acc
def removeEmptyL : NodeList → NodeList
  | .nil => .nil
  | .cons n ns => removeEmptyN n (removeEmptyL ns)
end

/-- `removeUnwantedElements` from `html-cleaner.ts`. -/
def removeUnwantedElements (ns : NodeList) : NodeList :=
  removeEmptyL (removeBySelectorsL ns)

/-- The first attribute pass of `cleanAttributes`: drop `data-*` attributes
other than `data-testid`, and `aria-*` / `on*` attributes.  (Both `if`s of
the source loop are independent; an attribute is removed when either
condition holds.) -/
def keepGenericAttr (n : String) : Bool :=
  ¬ ((startsWithStr n "data-" ∧ n ≠ "data-testid")
     ∨ startsWithStr n "aria-" ∨ startsWithStr n "on")

/-- Per-element attribute cleaning of `cleanAttributes`.  `el.attribs` is a
live object, so the `a`/`img` branches read attributes *after* the first
pass has already deleted `data-*`/`aria-*`/`on*` attributes: in particular
`$el.attr('data-src')` is always `undefined` there. -/
def cleanElemAttrs (t : String) (attrs : List (String × String)) : List (String × String) :=
  let attrs1 := attrs.filter (fun p => keepGenericAttr p.1)
  if t = "a" then
    let href := getAttr attrs1 "href"
    let attrs2 := attrs1.filter (fun p => p.1 = "href" ∨ p.1 = "title")
    if jsTruthy href then setAttr attrs2 "href" (href.getD "") else attrs2
  else if t = "img" then
    let src := jsOr (getAttr attrs1 "src") (getAttr attrs1 "data-src")
    let alt := getAttr attrs1 "alt"
    let attrs2 := attrs1.filter (fun p => p.1 = "src" ∨ p.1 = "alt")
    let attrs3 := if jsTruthy src then setAttr attrs2 "src" (src.getD "") else attrs2
    if jsTruthy alt then setAttr attrs3 "alt" (alt.getD "") else attrs3
  else attrs1

/-! `cleanAttributes` from `html-cleaner.ts`, over a node / forest. -/
mutual
def cleanAttributesN : Node → Node
  | .text s => .text s
  | .elem t a c => .elem t (cleanElemAttrs t a) (cleanAttributesL c)
def cleanAttributesL : NodeList → NodeList
  | .nil => .nil
  | .cons n ns => .cons (cleanAttributesN n) (cleanAttributesL ns)
end

/-- Void elements, serialized without closing tag. -/
def voidTags : List String :=
  ["area", "base", "br", "col", "embed", "hr", "img", "input", "link", "meta",
   "source", "track", "wbr"]

/-- Escaping of text nodes in serialized HTML. -/
def escText (s : String) : String :=
  ⟨s.data.flatMap (fun c =>
    if c = '&' then "&amp;".data
    else if c = '<' then "&lt;".data
    else if c = '>' then "&gt;".data
    else [c])⟩

/-- Escaping of attribute values in serialized HTML. -/
def escAttr (s : String) : String :=
  ⟨s.data.flatMap (fun c =>
    if c = '&' then "&amp;".data
    else if c = '"' then "&quot;".data
    else [c])⟩

/-- Serialization of an attribute list. -/
def attrsStr (attrs : List (String × String)) : String :=
  attrs.foldl (fun acc p => acc ++ " " ++ p.1 ++ "=\"" ++ escAttr p.2 ++ "\"") ""

/-! Serialization of a node / forest (cheerio `container.html()` renders the
children of the container). -/
mutual
def serializeN : Node → String
  | .text s => escText s
  | .elem t a c =>
    "<" ++ t ++ attrsStr a ++ ">"
      ++ (if voidTags.contains t then "" else serializeL c ++ "</" ++ t ++ ">")
def serializeL : NodeList → String
  | .nil => ""
  | .cons n ns => serializeN n ++ serializeL ns
end

/-- `.replace(/\s+/g, ' ')`: collapse every whitespace run to one space. -/
def collapseWsAux : List Char → Bool → List Char
  | [], _ => []
  | c :: cs, prevWs =>
    if c.isWhitespace then
      (if prevWs then [] else [' ']) ++ collapseWsAux cs true
    else c :: collapseWsAux cs false

/-- `.replace(/\s+/g, ' ')` on a string. -/
def collapseWs (s : String) : String := ⟨collapseWsAux s.data false⟩

/-- `.replace(/>\s+</g, '><')`: drop whitespace runs between `>` and `<`.
The state `pending = some ws` means a `>` has been emitted and `ws` holds
the (reversed) whitespace seen since. -/
def dropBetweenTagsAux : Option (List Char) → List Char → List Char
  | none, [] => []
  | none, c :: cs =>
    if c = '>' then '>' :: dropBetweenTagsAux (some []) cs
    else c :: dropBetweenTagsAux none cs
  | some ws, [] => ws.reverse
  | some ws, c :: cs =>
    if c.isWhitespace then dropBetweenTagsAux (some (c :: ws)) cs
    else if c = '<' ∧ ws ≠ [] then '<' :: dropBetweenTagsAux none cs
    else ws.reverse ++
      (if c = '>' then '>' :: dropBetweenTagsAux (some []) cs
       else c :: dropBetweenTagsAux none cs)

/-- `.replace(/>\s+</g, '><')` on a string. -/
def dropBetweenTags (s : String) : String := ⟨dropBetweenTagsAux none s.data⟩

/-- The final whitespace clean-up of `cleanHtml`:
`.replace(/\s+/g, ' ').replace(/>\s+</g, '><').replace(/^\s+|\s+$/g, '').trim()`
(the last two steps both just trim the ends). -/
def tidyWhitespace (s : String) : String :=
  trimStr (trimStr (dropBetweenTags (collapseWs s)))

/-- `cleanHtml` from `html-cleaner.ts`: clone the first match of the content
selector, remove unwanted elements, clean attributes, serialize, tidy
whitespace.  (`find('*')` passes act on the container's descendants, i.e. on
its children forest, which is exactly what `container.html()` serializes.) -/
def cleanHtml (doc : NodeList) (contentSelector : String) : String :=
  match (queryStr contentSelector doc).head? with
  | none => ""
  | some container =>
    tidyWhitespace
      (serializeL (cleanAttributesL (removeUnwantedElements container.childrenOf)))

/-- The cleaned children forest of the first content-selector match (the
tree that `cleanHtml` serializes); empty when there is no match. -/
def cleanForest (doc : NodeList) (contentSelector : String) : NodeList :=
  match (queryStr contentSelector doc).head? with
  | none => .nil
  | some container => cleanAttributesL (removeUnwantedElements container.childrenOf)

/-! ### Image extraction (`extractImages`) -/

/-- An entry of `extractImages`' result (`{ url, alt? }`). -/
structure ImageCandidate where
  url : String
  alt : Option String
deriving DecidableEq, Repr

/-! Attribute lists of all `img` descendants of a node / forest, in document
order (`.find('img')`). -/
mutual
def imgAttrListsN : Node → List (List (String × String))
  | .text _ => []
  | .elem t a c => (if t = "img" then [a] else []) ++ imgAttrListsL c
def imgAttrListsL : NodeList → List (List (String × String))
  | .nil => []
  | .cons n ns => imgAttrListsN n ++ imgAttrListsL ns
end

/-- The per-image loop of `extractImages` with its `seen` set: the source of
an image is `src`, falling back to `data-src`; a truthy, unseen source is
recorded, and contributes an entry when it starts with `http` or `//`
(protocol-relative sources are rewritten to `https:`-prefixed ones). -/
def extractLoop : List (List (String × String)) → List String → List ImageCandidate
  | [], _ => []
  | a :: rest, seen =>
    let src := jsOr (getAttr a "src") (getAttr a "data-src")
    let alt := getAttr a "alt"
    if jsTruthy src ∧ ¬ seen.contains (src.getD "") then
      let s := src.getD ""
      let seen' := s :: seen
      if startsWithStr s "http" ∨ startsWithStr s "//" then
        ⟨if startsWithStr s "//" then "https:" ++ s else s, jsOrUndef alt⟩
          :: extractLoop rest seen'
      else extractLoop rest seen'
    else extractLoop rest seen

/-- `extractImages` from `html-cleaner.ts`: all `img` descendants of the
content-selector matches, deduplicated and filtered by `extractLoop`. -/
def extractImages (doc : NodeList) (contentSelector : String) : List ImageCandidate :=
  extractLoop ((queryStr contentSelector doc).flatMap
    (fun e => imgAttrListsL e.childrenOf)) []

/-! ### Image downloader (`image-downloader.ts`)

Each image `fetch` is external; its outcome is an `ImgFetchOutcome`.  A
thrown error anywhere (network failure, abort, body-read failure) is caught
by `downloadImage`'s `try`/`catch`, which returns `undefined`. -/

/-- `MAX_IMAGE_SIZE_BYTES` (5 MiB). -/
def MAX_IMAGE_SIZE_BYTES : Nat := 5 * 1024 * 1024

/-- `MAX_IMAGES_PER_ARTICLE`. -/
def MAX_IMAGES_PER_ARTICLE : Nat := 50

/-- A received image response: `ok`, the `content-type` and `content-length`
headers (the latter already run through `parseInt`, `none` when absent or
not a number), and the body bytes (`none` when reading the body throws). -/
structure ImgResponse where
  ok : Bool
  contentType : Option String
  contentLength : Option Nat
  body : Option (List Nat)
deriving DecidableEq, Repr

/-- Outcome of an image `fetch`: a response, or a thrown error (network
failure or abort). -/
inductive ImgFetchOutcome where
  | response (r : ImgResponse)
  | thrown
deriving DecidableEq, Repr

/-- The base64 alphabet. -/
def base64Char (n : Nat) : Char :=
  "ABCDEFGHIJKLMNOPQRSTUVWXYZabcdefghijklmnopqrstuvwxyz0123456789+/".data.getD n 'A'

/-- Base64 encoding of a byte list (`Buffer.toString('base64')`). -/
def base64Encode : List Nat → String
  | [] => ""
  | [b1] =>
    ⟨[base64Char (b1 / 4), base64Char (b1 % 4 * 16), '=', '=']⟩
  | [b1, b2] =>
    ⟨[base64Char (b1 / 4), base64Char (b1 % 4 * 16 + b2 / 16), base64Char (b2 % 16 * 4), '=']⟩
  | b1 :: b2 :: b3 :: rest =>
    (⟨[base64Char (b1 / 4), base64Char (b1 % 4 * 16 + b2 / 16),
       base64Char (b2 % 16 * 4 + b3 / 64), base64Char (b3 % 64)]⟩ : String)
      ++ base64Encode rest

/-- The effective content type of an image response
(`response.headers.get('content-type') || 'image/jpeg'`). -/
def effContentType (r : ImgResponse) : String :=
  if jsTruthy r.contentType then r.contentType.getD "" else "image/jpeg"

/-- `downloadImage` from `image-downloader.ts`, over the fetch outcome for
the image's URL (`effContentType` embeds
`response.headers.get('content-type') || 'image/jpeg'`). -/
def downloadImage (fetchImg : String → ImgFetchOutcome) (url : String) : Option String :=
  match fetchImg url with
  | .thrown => none
  | .response r =>
    if ¬ r.ok then none
    else if ¬ startsWithStr (effContentType r) "image/" then none
    else if r.contentLength.any (fun len => len > MAX_IMAGE_SIZE_BYTES) then none
    else
      match r.body with
      | none => none
      | some bytes =>
        if bytes.length > MAX_IMAGE_SIZE_BYTES then none
        else some ("data:" ++ effContentType r ++ ";base64," ++ base64Encode bytes)

/-- An `ArticleImage` (`types.ts`). -/
structure ArticleImage where
  originalUrl : String
  base64 : Option String
  alt : Option String
deriving DecidableEq, Repr

/-- `downloadAllImages` from `image-downloader.ts`: truncate to the first 50
candidates and settle every download, each entry keeping its candidate's URL
and alt text. -/
def downloadAllImages (fetchImg : String → ImgFetchOutcome)
    (imageData : List ImageCandidate) : List ArticleImage :=
  (imageData.take MAX_IMAGES_PER_ARTICLE).map (fun c =>
    { originalUrl := c.url, base64 := downloadImage fetchImg c.url, alt := c.alt })

/-! ### Orchestrator (`scrapeArticle`) -/

/-- An `Article` (`types.ts`). -/
structure Article where
  url : String
  title : String
  subtitle : Option String
  author : String
  publishedDate : String
  readingTime : Option String
  content : String
  images : List ArticleImage
  tags : Option (List String)
deriving DecidableEq, Repr

/-- The content-selector resolution loop of `scrapeArticle`: the first
selector of `CSS_SELECTORS.content` with at least one match, defaulting to
`'article'`. -/
def resolveContentSelector (doc : NodeList) : String :=
  (contentSelectors.find? (fun s => 0 < (queryStr s doc).length)).getD "article"

/-- The post-parse pipeline of `scrapeArticle` (`medium-scraper.ts`): paywall
check, metadata, content-selector resolution, image extraction and download,
HTML cleaning, and assembly.  URL validation and the page fetch happen
before the document exists and are modelled separately
(`validateMediumUrl`, `fetchHtml`). -/
def scrapeParsed (doc : NodeList) (url now : String)
    (fetchImg : String → ImgFetchOutcome) : Except ErrorCode Article :=
  match checkPaywall doc with
  | .error e => .error e
  | .ok _ =>
    match extractMetadata doc url now with
    | .error e => .error e
    | .ok md =>
      let contentSelector := resolveContentSelector doc
      let imageData := extractImages doc contentSelector
      let images := downloadAllImages fetchImg imageData
      let content := cleanHtml doc contentSelector
      if content = "" then .error .PARSE_ERROR
      else .ok { url := md.url, title := md.title, subtitle := md.subtitle,
                 author := md.author, publishedDate := md.publishedDate,
                 readingTime := md.readingTime, content := content,
                 images := images, tags := md.tags }

/-! ### Auxiliary definitions used in the statements of the theorems -/

/-- Octet-boundedness of any dotted-quad reading of a hostname.  The WHATWG
`URL` parser (external to the scraper) normalizes or rejects IPv4-shaped
hostnames, so the `hostname` field of a successfully constructed `URL` never
is a dotted quad with an octet above 255; theorems about `validateMediumUrl`
assume this about the parse result. -/
def wellFormedHost (h : String) : Bool :=
  match ipv4Quad (lowerStr h) with
  | some (a, b, c, d) => a ≤ 255 && b ≤ 255 && c ≤ 255 && d ≤ 255
  | none => true

/-- The specification's characterization of a private/loopback host: the
`localhost` names, a valid IPv4 literal in 127.0.0.0/8, 10.0.0.0/8,
172.16.0.0/12, 192.168.0.0/16, 169.254.0.0/16 or 0.0.0.0/8, or the IPv6
loopback (bracketed or not), all case-insensitively.  This is stated from
the spec's words, to be compared with the code's `isPrivateHost`. -/
def specPrivateHost (h : String) : Bool :=
  let lower := lowerStr h
  lower = "localhost" || lower = "localhost.localdomain" ||
  (match ipv4Quad lower with
   | some (a, b, c, d) =>
     (a ≤ 255 && b ≤ 255 && c ≤ 255 && d ≤ 255) &&
     (a = 127 || a = 10 || (a = 172 && 16 ≤ b && b ≤ 31) || (a = 192 && b = 168)
        || (a = 169 && b = 254) || a = 0)
   | none => false) ||
  lower = "::1" || lower = "[::1]"

/-- Keep the first occurrence of every value, dropping later duplicates
(`seen` accumulates the values already kept). -/
def dedupFirstAux (seen : List String) : List String → List String
  | [] => []
  | x :: xs =>
    if seen.contains x then dedupFirstAux seen xs
    else x :: dedupFirstAux (x :: seen) xs

/-- The trimmed, lower-cased tag texts that pass the emptiness and length
filters, before deduplication. -/
def tagCandidates (doc : NodeList) : List String :=
  ((tagTexts doc).map (fun s => lowerStr (trimStr s))).filter
    (fun t => t ≠ "" && strLen t < 50)

/-- The raw (pre-rewrite) image sources with their alt texts: one pair per
`img` with a truthy `src`/`data-src`, in document order. -/
def imgRawPairs : List (List (String × String)) → List (String × Option String)
  | [] => []
  | a :: rest =>
    (if jsTruthy (jsOr (getAttr a "src") (getAttr a "data-src")) then
      [((jsOr (getAttr a "src") (getAttr a "data-src")).getD "", getAttr a "alt")]
     else [])
    ++ imgRawPairs rest

/-- Keep the first occurrence of every raw source, dropping later pairs with
the same raw source. -/
def dedupPairsAux (seen : List String) : List (String × Option String) → List (String × Option String)
  | [] => []
  | p :: ps =>
    if seen.contains p.1 then dedupPairsAux seen ps
    else p :: dedupPairsAux (p.1 :: seen) ps

/-- Turn a kept raw pair into the extracted candidate (protocol-relative
sources rewritten to `https:`). -/
def candidateOfPair (p : String × Option String) : ImageCandidate :=
  ⟨if startsWithStr p.1 "//" then "https:" ++ p.1 else p.1, jsOrUndef p.2⟩

/-! Does every element of the node / forest satisfy a predicate on its tag
and attributes? -/
mutual
def nodeAll (p : String → List (String × String) → Bool) : Node → Bool
  | .text _ => true
  | .elem t a c => p t a && forestAll p c
def forestAll (p : String → List (String × String) → Bool) : NodeList → Bool
  | .nil => true
  | .cons n ns => nodeAll p n && forestAll p ns
end

/-- No `data-*` attribute other than `data-testid`, no `aria-*` attribute,
no attribute starting with `on`. -/
def genericAttrsOk (attrs : List (String × String)) : Bool :=
  attrs.all (fun q =>
    !(startsWithStr q.1 "data-" && q.1 != "data-testid")
    && !(startsWithStr q.1 "aria-") && !(startsWithStr q.1 "on"))

/-- The attribute part of the sanitization property: attributes as in
`genericAttrsOk`, anchors only with `href`/`title`, images only with
`src`/`alt`. -/
def attrsClaimOk (t : String) (attrs : List (String × String)) : Bool :=
  genericAttrsOk attrs
  && (if t = "a" then attrs.all (fun q => q.1 == "href" || q.1 == "title") else true)
  && (if t = "img" then attrs.all (fun q => q.1 == "src" || q.1 == "alt") else true)

/-- The sanitization property claimed of every element of `cleanHtml`'s
output: not a `script`/`style`/`nav`/`footer` element, and attributes as in
`attrsClaimOk`. -/
def sanitizedElemOk (t : String) (attrs : List (String × String)) : Bool :=
  !(["script", "style", "nav", "footer"].contains t) && attrsClaimOk t attrs

/-! ### Concrete inputs used by counterexamples and witnesses -/

/-- A parsed page: an article with a title, a paragraph and one image whose
download will succeed. -/
def cexDocC1 : NodeList :=
  NodeList.ofList [el "html" [] [
    el "body" [] [
      el "article" [] [
        el "h1" [] [tx "Title"],
        el "p" [] [tx "Hello world"],
        el "img" [("src", "https://ex.com/a.jpg")] []]]]]

/-- An image-fetch oracle: every image request succeeds with a 3-byte
`image/jpeg` body. -/
def fetchOkImg : String → ImgFetchOutcome := fun _ =>
  .response ⟨true, some "image/jpeg", some 3, some [0, 0, 0]⟩

/-- The article produced by `scrapeParsed` on `cexDocC1` with `fetchOkImg`. -/
def cexArticleC1 : Article :=
  { url := "https://medium.com/x", title := "Title", subtitle := none,
    author := "Unknown Author", publishedDate := "NOW", readingTime := none,
    content := "<h1>Title</h1><p>Hello world</p><img src=\"https://ex.com/a.jpg\">",
    images := [⟨"https://ex.com/a.jpg", some "data:image/jpeg;base64,AAAA", none⟩],
    tags := none }

/-- A parsed page with no `time[datetime]` element but a
`meta[property="article:published_time"]` element with non-empty content. -/
def cexDocC2 : NodeList :=
  NodeList.ofList [el "html" [] [
    el "head" [] [
      el "meta" [("property", "article:published_time"), ("content", "2026-01-01")] []],
    el "body" [] [
      el "article" [] [
        el "h1" [] [tx "Title"],
        el "p" [] [tx "Content"]]]]]

/-- An article with a protocol-relative and an absolute spelling of the same
image URL. -/
def cexDocC4 : NodeList :=
  NodeList.ofList [el "body" [] [el "article" [] [
    el "img" [("src", "//ex.com/a.jpg"), ("alt", "A")] [],
    el "img" [("src", "https://ex.com/a.jpg"), ("alt", "B")] []]]]

/-- An article with two images with identical `src`. -/
def cexDocC4same : NodeList :=
  NodeList.ofList [el "body" [] [el "article" [] [
    el "img" [("src", "https://ex.com/same.jpg"), ("alt", "First")] [],
    el "img" [("src", "https://ex.com/same.jpg"), ("alt", "Duplicate")] []]]]

/-- An image-fetch oracle where every request throws. -/
def fetchAllThrow : String → ImgFetchOutcome := fun _ => .thrown

/-- A parsed page with a paywall marker element. -/
def cexDocC6 : NodeList :=
  NodeList.ofList [el "body" [] [
    el "div" [("data-testid", "paywall")] [tx "Please subscribe"],
    el "article" [] [el "h1" [] [tx "Title"]]]]

/-- A parsed page with an article and two tag links ("AI" twice under
different casings/paddings, and "Ml"). -/
def cexDocC9 : NodeList :=
  NodeList.ofList [el "body" [] [
    el "article" [] [el "h1" [] [tx "T"], el "p" [] [tx "hello"]],
    el "a" [("href", "/tag/ai"), ("data-testid", "tag")] [tx " AI "],
    el "a" [("href", "/tag/ml")] [tx "Ml"],
    el "a" [("href", "/tag/ai2")] [tx "ai"]]]

/-- The article produced by `scrapeParsed` on `cexDocC9` with every image
fetch throwing. -/
def cexArticleC9 : Article :=
  { url := "u", title := "T", subtitle := none, author := "Unknown Author",
    publishedDate := "NOW", readingTime := none,
    content := "<h1>T</h1><p>hello</p>", images := [],
    tags := some ["ai", "ml"] }

/-- An article containing a lazy-loaded image: `data-src` but no `src`. -/
def cexDocC10 : NodeList :=
  NodeList.ofList [el "body" [] [el "article" [] [
    el "p" [] [tx "hi"],
    el "img" [("data-src", "https://ex.com/lazy.jpg"), ("alt", "Lazy")] []]]]


/-! ## Theorems -/


/-- `Char.toLower` is idempotent. -/
theorem char_toLower_idem (c : Char) : c.toLower.toLower = c.toLower := by
  unfold Char.toLower
  by_cases h : c.toNat ≥ 65 ∧ c.toNat ≤ 90
  · rw [if_pos h]
    have hv : (Char.ofNat (c.toNat + 32)).toNat = c.toNat + 32 := by
      obtain ⟨h1, h2⟩ := h
      set n := c.toNat with hn
      interval_cases n <;> decide
    rw [if_neg (by omega)]
  · rw [if_neg h, if_neg h]

/-- `lowerStr` is idempotent. -/
theorem lowerStr_idem (s : String) : lowerStr (lowerStr s) = lowerStr s := by
  unfold lowerStr
  congr 1
  rw [List.map_map]
  apply List.map_congr_left
  intro c _
  exact char_toLower_idem c

theorem wellFormedHost_lower (h : String) :
    wellFormedHost (lowerStr h) = wellFormedHost h := by
  simp [wellFormedHost, lowerStr_idem]

theorem specPrivateHost_lower (h : String) :
    specPrivateHost (lowerStr h) = specPrivateHost h := by
  simp [specPrivateHost, lowerStr_idem]

/-- On well-formed hostnames the code's `isPrivateHost` agrees with the
spec's characterization. -/
theorem isPrivateHost_eq_spec (h : String) (hw : wellFormedHost h = true) :
    isPrivateHost h = specPrivateHost h := by
  unfold isPrivateHost specPrivateHost
  unfold wellFormedHost at hw
  by_cases hl : lowerStr h = "localhost" ∨ lowerStr h = "localhost.localdomain"
  · rw [if_pos hl]
    rcases hl with h1 | h1 <;> simp [h1]
  · rw [if_neg hl]
    push_neg at hl
    obtain ⟨hl1, hl2⟩ := hl
    cases hq : ipv4Quad (lowerStr h) with
    | none => simp [hq, hl1, hl2]
    | some q =>
      obtain ⟨a, b, c, d⟩ := q
      rw [hq] at hw
      simp only [hq, decide_eq_true_eq] at *
      simp [hl1, hl2, hw, Bool.or_assoc]

/-- C3: URL validation fails with INVALID_URL exactly when the URL is
malformed, or its hostname (case-insensitively) is a localhost name, a
private/loopback/link-local IPv4 literal, or the IPv6 loopback, or the
scheme is not exactly `https`, or the hostname neither equals nor is a
subdomain of an allow-list entry.  The private-host check precedes the
scheme check, so private hosts are rejected regardless of scheme.  The
hypothesis records that the WHATWG URL parser never produces a dotted-quad
hostname with an octet above 255. -/
theorem validateMediumUrl_invalid_iff (p : Option ParsedUrl)
    (hw : ∀ u, p = some u → wellFormedHost u.hostname = true) :
    validateMediumUrl p = .error .INVALID_URL ↔
      (p = none ∨ ∃ u, p = some u ∧
        (specPrivateHost u.hostname = true ∨ u.protocol ≠ "https:" ∨
         isAllowedDomain (lowerStr u.hostname) = false)) := by
  cases p with
  | none => simp [validateMediumUrl]
  | some u =>
    have hwu := hw u rfl
    have h1 : isPrivateHost (lowerStr u.hostname) = specPrivateHost u.hostname := by
      rw [isPrivateHost_eq_spec _ (by rw [wellFormedHost_lower]; exact hwu)]
      exact specPrivateHost_lower u.hostname
    simp only [validateMediumUrl]
    rw [h1]
    by_cases hp : specPrivateHost u.hostname = true
    · simp [hp]
    · by_cases hs : u.protocol = "https:"
      · cases hD : isAllowedDomain (lowerStr u.hostname) with
        | true => simp [hD, hp, hs]
        | false => simp [hD, hp, hs]
      · simp [hs, hp]

theorem validateMediumUrl_invalid_iff_witness :
    (validateMediumUrl (some ⟨"https:", "medium.com"⟩) = .error .INVALID_URL ↔
      ((some (⟨"https:", "medium.com"⟩ : ParsedUrl) = none) ∨
        ∃ u, some (⟨"https:", "medium.com"⟩ : ParsedUrl) = some u ∧
          (specPrivateHost u.hostname = true ∨ u.protocol ≠ "https:" ∨
           isAllowedDomain (lowerStr u.hostname) = false))) ∧
    validateMediumUrl (some ⟨"https:", "medium.com"⟩) = .ok () :=
  ⟨validateMediumUrl_invalid_iff (some ⟨"https:", "medium.com"⟩)
      (fun u hu => by injection hu with hu; subst hu; decide),
   by rfl⟩

/-- C7: the page-fetch outcome mapping is exhaustive and exact: HTTP 404
fails with NOT_FOUND, any other non-success status fails with
NETWORK_ERROR, cancellation by the timeout fails with TIMEOUT, any other
transport failure fails with NETWORK_ERROR, and a success status returns
the raw response body text.  (`fetchHtml` performs no retry: it is a
function of one fetch outcome.) -/
theorem fetchHtml_outcome_mapping :
    (∀ body, fetchHtml (.response 404 body) = .error .NOT_FOUND) ∧
    (∀ status body, status ≠ 404 → responseOk status = false →
      fetchHtml (.response status body) = .error .NETWORK_ERROR) ∧
    fetchHtml .abortTimeout = .error .TIMEOUT ∧
    fetchHtml .transportError = .error .NETWORK_ERROR ∧
    (∀ status body, responseOk status = true → fetchHtml (.response status body) = .ok body) := by
  refine ⟨fun body => rfl, fun status body h404 hok => ?_, rfl, rfl,
    fun status body hok => ?_⟩
  · simp [fetchHtml, h404, hok]
  · have h404 : status ≠ 404 := by
      intro h
      subst h
      simp [responseOk] at hok
    simp [fetchHtml, h404, hok]

theorem fetchHtml_outcome_mapping_witness :
    fetchHtml (.response 500 "oops") = .error .NETWORK_ERROR ∧
    fetchHtml (.response 200 "page") = .ok "page" ∧
    fetchHtml (.response 404 "gone") = .error .NOT_FOUND :=
  ⟨fetchHtml_outcome_mapping.2.1 500 "oops" (by decide) (by decide),
   fetchHtml_outcome_mapping.2.2.2.2 200 "page" (by decide),
   fetchHtml_outcome_mapping.1 "gone"⟩

/-- C5: `downloadAllImages` returns exactly `min 50 n` entries in input
order; entry `i` preserves candidate `i`'s URL as `originalUrl` and its alt
text, and its `base64` is exactly `downloadImage` of that URL, so a failing
download makes only that entry's `base64` `none` and never disturbs other
entries; 60 candidates yield exactly 50 entries.  (The function is total:
per-image failures are values, never exceptions.) -/
theorem downloadAllImages_bounded_isolated (f : String → ImgFetchOutcome)
    (cs : List ImageCandidate) :
    (downloadAllImages f cs).length = min MAX_IMAGES_PER_ARTICLE cs.length ∧
    (∀ i c, i < MAX_IMAGES_PER_ARTICLE → cs[i]? = some c →
      (downloadAllImages f cs)[i]? =
        some ⟨c.url, downloadImage f c.url, c.alt⟩) ∧
    (cs.length = 60 → (downloadAllImages f cs).length = 50) := by
  refine ⟨by simp [downloadAllImages], fun i c hi hc => ?_, fun h60 => ?_⟩
  · simp [downloadAllImages, List.getElem?_take, hi, hc]
  · simp [downloadAllImages, h60, MAX_IMAGES_PER_ARTICLE]

theorem downloadAllImages_bounded_isolated_witness :
    (downloadAllImages fetchAllThrow (List.replicate 60 ⟨"https://ex.com/i.jpg", none⟩)).length = 50 ∧
    (downloadAllImages fetchAllThrow (List.replicate 60 ⟨"https://ex.com/i.jpg", none⟩))[0]? =
      some ⟨"https://ex.com/i.jpg", none, none⟩ :=
  ⟨(downloadAllImages_bounded_isolated fetchAllThrow _).2.2 (by simp),
   (downloadAllImages_bounded_isolated fetchAllThrow _).2.1 0 ⟨"https://ex.com/i.jpg", none⟩
      (by decide) (by simp)⟩



/-! ### Published-date extraction (claim C2) -/

/-- C2 (code bug): the claim says a document with no `time[datetime]`
element but with a `meta[property="article:published_time"]` element
carrying non-empty content yields that content value.  In the code the
selector string contains the substring "time", so the `datetime` branch
intercepts it and reads the meta element's (absent) `datetime` attribute:
whenever no `time[datetime]` element matches and the first matching meta
element has no `datetime` attribute, the published date falls back to the
current instant, regardless of the meta `content` value. -/
theorem publishedDate_meta_branch_dead (doc : NodeList) (now : String)
    (h1 : queryStr "time[datetime]" doc = [])
    (h2 : ((queryStr "meta[property=\"article:published_time\"]" doc).head?.bind
          (fun e => getAttr e.attrsOf "datetime")) = none) :
    extractPublishedDate doc now = now := by
  have ht : hasSubstr "meta[property=\"article:published_time\"]" "time" = true := by decide
  cases hh : (queryStr "meta[property=\"article:published_time\"]" doc).head? with
  | none =>
    simp [extractPublishedDate, publishedDateSelectors, publishedDateLoop, h1, hh]
  | some e =>
    rw [hh] at h2
    simp only [Option.some_bind] at h2
    simp [extractPublishedDate, publishedDateSelectors, publishedDateLoop, h1, hh, h2, ht]

/-- Witness for C2: on a concrete document whose meta tag carries
content "2026-01-01", the published date is still the `now` sentinel. -/
theorem publishedDate_meta_branch_dead_witness :
    extractPublishedDate cexDocC2 "NOW" = "NOW" ∧
    ((queryStr "meta[property=\"article:published_time\"]" cexDocC2).head?.map
      (fun e => getAttr e.attrsOf "content")) = some (some "2026-01-01") :=
  ⟨publishedDate_meta_branch_dead cexDocC2 "NOW" rfl rfl, rfl⟩

/-! ### Paywall detection (claim C6) -/

/-- C6: the paywall check fails with PAYWALL if and only if some paywall
selector has at least one match, or the lower-cased body text contains
"member-only story" or "become a member" and the trimmed article text is
shorter than 500 characters. -/
theorem checkPaywall_iff (doc : NodeList) :
    checkPaywall doc = .error .PAYWALL ↔
      ((∃ s ∈ paywallSelectors, queryStr s doc ≠ []) ∨
       ((hasSubstr (bodyTextLower doc) "member-only story" = true ∨
         hasSubstr (bodyTextLower doc) "become a member" = true) ∧
        strLen (trimStr (textOfMatches "article" doc)) < 500)) := by
  unfold checkPaywall
  cases hA : paywallSelectors.any (fun s => decide (0 < (queryStr s doc).length)) with
  | true =>
    obtain ⟨s, hs, hlen⟩ := List.any_eq_true.mp hA
    simp only [reduceIte]
    constructor
    · intro _
      exact Or.inl ⟨s, hs, List.length_pos.mp (of_decide_eq_true hlen)⟩
    · intro _
      trivial
  | false =>
    have hno : ¬ (∃ s ∈ paywallSelectors, queryStr s doc ≠ []) := by
      rintro ⟨s, hs, hne⟩
      have : paywallSelectors.any (fun s => decide (0 < (queryStr s doc).length)) = true :=
        List.any_eq_true.mpr ⟨s, hs, decide_eq_true (List.length_pos.mpr hne)⟩
      rw [hA] at this
      exact absurd this (by simp)
    simp only [Bool.false_eq_true, reduceIte]
    cases hB : (hasSubstr (bodyTextLower doc) "member-only story"
        || hasSubstr (bodyTextLower doc) "become a member") with
    | false =>
      have hB' := Bool.or_eq_false_iff.mp hB
      simp [hB, hB'.1, hB'.2, hno]
    | true =>
      have hB' := Bool.or_eq_true_iff.mp hB
      by_cases hL : strLen (trimStr (textOfMatches "article" doc)) < 500
      · simp [hB, hL, hB']
      · simp [hB, hL, hno]

/-- Witness for C6 at a concrete paywalled document. -/
theorem checkPaywall_iff_witness :
    (checkPaywall cexDocC6 = .error .PAYWALL ↔
      ((∃ s ∈ paywallSelectors, queryStr s cexDocC6 ≠ []) ∨
       ((hasSubstr (bodyTextLower cexDocC6) "member-only story" = true ∨
         hasSubstr (bodyTextLower cexDocC6) "become a member" = true) ∧
        strLen (trimStr (textOfMatches "article" cexDocC6)) < 500))) ∧
    checkPaywall cexDocC6 = .error .PAYWALL :=
  ⟨checkPaywall_iff cexDocC6, rfl⟩

/-! ### Image substitution in the orchestrator (claim C1) -/

/-- Elimination lemma for a successful `scrapeParsed` run: the article's
content is exactly `cleanHtml` of the resolved content selector (and
non-empty), its images are exactly `downloadAllImages` of the extracted
candidates, and its metadata comes from `extractMetadata`. -/
theorem scrapeParsed_ok_elim {doc : NodeList} {url now : String}
    {f : String → ImgFetchOutcome} {a : Article}
    (h : scrapeParsed doc url now f = .ok a) :
    a.content = cleanHtml doc (resolveContentSelector doc) ∧
    a.content ≠ "" ∧
    a.images = downloadAllImages f (extractImages doc (resolveContentSelector doc)) ∧
    ∃ md, extractMetadata doc url now = .ok md ∧ a.tags = md.tags := by
  revert h
  unfold scrapeParsed
  cases hcp : checkPaywall doc with
  | error e => intro h; exact Except.noConfusion h
  | ok u =>
    cases hmd : extractMetadata doc url now with
    | error e => intro h; exact Except.noConfusion h
    | ok md =>
      intro h
      replace h : (if cleanHtml doc (resolveContentSelector doc) = "" then
            Except.error ErrorCode.PARSE_ERROR
          else Except.ok (⟨md.url, md.title, md.subtitle, md.author, md.publishedDate,
            md.readingTime, cleanHtml doc (resolveContentSelector doc),
            downloadAllImages f (extractImages doc (resolveContentSelector doc)),
            md.tags⟩ : Article)) = Except.ok a := h
      by_cases hc : cleanHtml doc (resolveContentSelector doc) = ""
      · rw [if_pos hc] at h
        exact Except.noConfusion h
      · rw [if_neg hc] at h
        injection h with h
        subst h
        exact ⟨rfl, hc, rfl, md, rfl, rfl⟩

/-- C1 (corrected): `scrapeArticle` performs no substitution of downloaded
images into the content: the returned content is exactly the cleaned HTML,
computed independently of the image downloads, so every image URL occurring
as a `src` value stays as-is even when its download succeeded.  (Base64
substitution happens downstream in the PDF/ePub generators, outside the
scraper.) -/
theorem scrapeParsed_content_never_substituted (doc : NodeList) (url now : String)
    (f : String → ImgFetchOutcome) (a : Article)
    (h : scrapeParsed doc url now f = .ok a) :
    a.content = cleanHtml doc (resolveContentSelector doc) ∧
    a.images = downloadAllImages f (extractImages doc (resolveContentSelector doc)) := by
  obtain ⟨h1, _, h3, _⟩ := scrapeParsed_ok_elim h
  exact ⟨h1, h3⟩

/-- Counterexample for C1 as stated: a successful scrape where the only
image's download succeeded (`base64` defined) yet the content still
contains the original URL as a `src` value and contains no data URI. -/
theorem scrapeParsed_substitution_counterexample :
    scrapeParsed cexDocC1 "https://medium.com/x" "NOW" fetchOkImg = .ok cexArticleC1 ∧
    cexArticleC1.images =
      [⟨"https://ex.com/a.jpg", some "data:image/jpeg;base64,AAAA", none⟩] ∧
    hasSubstr cexArticleC1.content "src=\"https://ex.com/a.jpg\"" = true ∧
    hasSubstr cexArticleC1.content "data:image/jpeg;base64,AAAA" = false :=
  ⟨rfl, rfl, by decide, by decide⟩

/-- Witness for C1's amended theorem at a concrete successful scrape. -/
theorem scrapeParsed_content_never_substituted_witness :
    cexArticleC1.content = cleanHtml cexDocC1 (resolveContentSelector cexDocC1) ∧
    cexArticleC1.images =
      downloadAllImages fetchOkImg (extractImages cexDocC1 (resolveContentSelector cexDocC1)) :=
  scrapeParsed_content_never_substituted cexDocC1 "https://medium.com/x" "NOW" fetchOkImg
    cexArticleC1 rfl

/-! ### Image extraction and deduplication (claim C4) -/

/-- The extraction loop equals: take the raw truthy sources in order,
deduplicate by the raw source string keeping first occurrences, keep the
absolute and protocol-relative ones, and rewrite protocol-relative sources. -/
theorem extractLoop_eq_dedup (imgs : List (List (String × String))) (seen : List String) :
    extractLoop imgs seen =
      ((dedupPairsAux seen (imgRawPairs imgs)).filter
        (fun p => startsWithStr p.1 "http" || startsWithStr p.1 "//")).map candidateOfPair := by
  induction imgs generalizing seen with
  | nil => rfl
  | cons a rest ih =>
    by_cases htr : jsTruthy (jsOr (getAttr a "src") (getAttr a "data-src")) = true
    · by_cases hseen :
        seen.contains ((jsOr (getAttr a "src") (getAttr a "data-src")).getD "") = true
      · simp only [extractLoop]
        rw [if_neg (fun hcon => hcon.2 hseen)]
        simp only [imgRawPairs]
        rw [if_pos htr]
        simp only [List.singleton_append, dedupPairsAux]
        rw [if_pos hseen]
        exact ih seen
      · simp only [extractLoop]
        rw [if_pos ⟨htr, hseen⟩]
        simp only [imgRawPairs]
        rw [if_pos htr]
        simp only [List.singleton_append, dedupPairsAux]
        rw [if_neg hseen]
        simp only [List.filter_cons]
        by_cases hst :
            (startsWithStr ((jsOr (getAttr a "src") (getAttr a "data-src")).getD "") "http"
             || startsWithStr ((jsOr (getAttr a "src") (getAttr a "data-src")).getD "") "//") = true
        · rw [if_pos (Bool.or_eq_true_iff.mp hst), if_pos hst, List.map_cons]
          exact congrArg₂ List.cons rfl (ih _)
        · rw [if_neg (fun hc => hst (Bool.or_eq_true_iff.mpr hc)), if_neg hst]
          exact ih _
    · simp only [extractLoop]
      rw [if_neg (fun hcon => htr hcon.1)]
      simp only [imgRawPairs]
      rw [if_neg htr]
      simp only [List.nil_append]
      exact ih seen

/-- C4 (corrected): `extractImages` deduplicates by the exact RAW source
string (before the protocol-relative rewriting), keeping the first
occurrence's alt text and dropping later raw duplicates entirely; in
particular two `img` elements with identical `src` yield exactly one entry
with the first element's alt text.  Sources whose raw spellings differ but
whose rewritten URLs coincide are NOT deduplicated. -/
theorem extractImages_dedup_by_raw_source :
    (∀ doc sel, extractImages doc sel =
      ((dedupPairsAux [] (imgRawPairs
          ((queryStr sel doc).flatMap (fun e => imgAttrListsL e.childrenOf)))).filter
        (fun p => startsWithStr p.1 "http" || startsWithStr p.1 "//")).map candidateOfPair) ∧
    extractImages cexDocC4same "article" = [⟨"https://ex.com/same.jpg", some "First"⟩] :=
  ⟨fun _ _ => extractLoop_eq_dedup _ _, rfl⟩

/-- Counterexample for C4 as stated: a protocol-relative and an absolute
spelling of the same URL have the same rewritten URL, yet extraction keeps
both entries, so deduplication is not by the rewritten URL string. -/
theorem extractImages_rewritten_dedup_counterexample :
    extractImages cexDocC4 "article" =
      [⟨"https://ex.com/a.jpg", some "A"⟩, ⟨"https://ex.com/a.jpg", some "B"⟩] ∧
    ¬ ((extractImages cexDocC4 "article").map ImageCandidate.url).Nodup :=
  ⟨rfl, by decide⟩

/-! ### Lazy-loaded image sources in the attribute pass (claim C10) -/

theorem getAttr_filter_none {attrs : List (String × String)} {p : String × String → Bool}
    {n : String} (h : getAttr attrs n = none) : getAttr (attrs.filter p) n = none := by
  simp only [getAttr, Option.map_eq_none', List.find?_eq_none] at *
  intro x hx
  exact h x (List.mem_of_mem_filter hx)

theorem getAttr_filter_excluded {attrs : List (String × String)} {p : String × String → Bool}
    {n : String} (hp : ∀ v, p (n, v) = false) : getAttr (attrs.filter p) n = none := by
  simp only [getAttr, Option.map_eq_none', List.find?_eq_none]
  intro x hx heq
  have hx1 : x.1 = n := by simpa using heq
  have hpx := List.of_mem_filter hx
  have hxn : x = (n, x.2) := by
    cases x
    simp_all
  rw [hxn, hp x.2] at hpx
  exact Bool.noConfusion hpx

theorem find_map_setPair_ne (attrs : List (String × String)) (n v m : String) (h : m ≠ n) :
    (attrs.map (fun p => if p.1 = n then (n, v) else p)).find? (fun p => p.1 = m)
      = attrs.find? (fun p => p.1 = m) := by
  induction attrs with
  | nil => rfl
  | cons q qs ih =>
    by_cases hq : q.1 = n
    · have e1 : (if q.1 = n then (n, v) else q) = (n, v) := if_pos hq
      rw [List.map_cons, e1,
        List.find?_cons_of_neg _ (by simpa using Ne.symm h),
        List.find?_cons_of_neg _ (by rw [hq]; simpa using Ne.symm h)]
      exact ih
    · have e1 : (if q.1 = n then (n, v) else q) = q := if_neg hq
      rw [List.map_cons, e1]
      by_cases hm : q.1 = m
      · rw [List.find?_cons_of_pos _ (by simpa using hm),
          List.find?_cons_of_pos _ (by simpa using hm)]
      · rw [List.find?_cons_of_neg _ (by simpa using hm),
          List.find?_cons_of_neg _ (by simpa using hm)]
        exact ih

theorem find_append_singleton_ne (attrs : List (String × String)) (n v m : String) (h : m ≠ n) :
    (attrs ++ [(n, v)]).find? (fun p => p.1 = m) = attrs.find? (fun p => p.1 = m) := by
  induction attrs with
  | nil =>
    simp only [List.nil_append]
    rw [List.find?_cons_of_neg _ (by simpa using Ne.symm h)]
  | cons q qs ih =>
    by_cases hm : q.1 = m
    · rw [List.cons_append,
        List.find?_cons_of_pos _ (by simpa using hm),
        List.find?_cons_of_pos _ (by simpa using hm)]
    · rw [List.cons_append,
        List.find?_cons_of_neg _ (by simpa using hm),
        List.find?_cons_of_neg _ (by simpa using hm)]
      exact ih

theorem getAttr_setAttr_ne (attrs : List (String × String)) (n v m : String) (h : m ≠ n) :
    getAttr (setAttr attrs n v) m = getAttr attrs m := by
  unfold setAttr getAttr
  split
  · rw [find_map_setPair_ne attrs n v m h]
  · rw [find_append_singleton_ne attrs n v m h]

/-- C10 (corrected): the lazy-load fallback in `cleanAttributes` is dead
code: `data-src` is deleted by the `data-*` pass before the `img` branch
reads it, so an image without a `src` attribute gets NO `src` attribute in
the output (and no element retains `data-src`); the original `data-src`
value is never promoted. -/
theorem cleanAttributes_img_src_not_promoted :
    (∀ attrs, getAttr attrs "src" = none →
      getAttr (cleanElemAttrs "img" attrs) "src" = none) ∧
    (∀ t attrs, getAttr (cleanElemAttrs t attrs) "data-src" = none) := by
  constructor
  · intro attrs h
    have h1 : getAttr (attrs.filter (fun p => keepGenericAttr p.1)) "src" = none :=
      getAttr_filter_none h
    have h2 : getAttr (attrs.filter (fun p => keepGenericAttr p.1)) "data-src" = none :=
      getAttr_filter_excluded (fun v => show keepGenericAttr "data-src" = false by decide)
    have h3 : getAttr ((attrs.filter (fun p => keepGenericAttr p.1)).filter
        (fun p => p.1 = "src" ∨ p.1 = "alt")) "src" = none := getAttr_filter_none h1
    simp only [cleanElemAttrs]
    rw [if_neg (show ¬ ("img" = "a") from by decide), if_pos trivial, h1, h2,
      if_neg (show ¬ (jsTruthy (jsOr none none) = true) from by decide)]
    split
    · exact (getAttr_setAttr_ne _ "alt" _ "src" (by decide)).trans h3
    · exact h3
  · intro t attrs
    have hgen : getAttr (attrs.filter (fun p => keepGenericAttr p.1)) "data-src" = none :=
      getAttr_filter_excluded (fun v => show keepGenericAttr "data-src" = false by decide)
    simp only [cleanElemAttrs]
    split
    · have h2 : getAttr ((attrs.filter (fun p => keepGenericAttr p.1)).filter
          (fun p => p.1 = "href" ∨ p.1 = "title")) "data-src" = none :=
        getAttr_filter_excluded (fun v =>
          show (decide ("data-src" = "href" ∨ "data-src" = "title")) = false by decide)
      split
      · exact (getAttr_setAttr_ne _ "href" _ "data-src" (by decide)).trans h2
      · exact h2
    · split
      · have h2 : getAttr ((attrs.filter (fun p => keepGenericAttr p.1)).filter
            (fun p => p.1 = "src" ∨ p.1 = "alt")) "data-src" = none :=
          getAttr_filter_excluded (fun v =>
            show (decide ("data-src" = "src" ∨ "data-src" = "alt")) = false by decide)
        split
        · split
          · exact (getAttr_setAttr_ne _ "alt" _ "data-src" (by decide)).trans
              ((getAttr_setAttr_ne _ "src" _ "data-src" (by decide)).trans h2)
          · exact (getAttr_setAttr_ne _ "alt" _ "data-src" (by decide)).trans h2
        · split
          · exact (getAttr_setAttr_ne _ "src" _ "data-src" (by decide)).trans h2
          · exact h2
      · exact hgen

/-- Counterexample for C10 as stated: a retained image that originally had
only `data-src` comes out of `cleanHtml` with no `src` attribute at all. -/
theorem cleanAttributes_lazy_src_counterexample :
    cleanHtml cexDocC10 "article" = "<p>hi</p><img alt=\"Lazy\">" ∧
    getAttr (cleanElemAttrs "img"
      [("data-src", "https://ex.com/lazy.jpg"), ("alt", "Lazy")]) "src" = none :=
  ⟨rfl, rfl⟩

/-- Witness for C10's amended theorem at concrete attribute lists. -/
theorem cleanAttributes_img_src_not_promoted_witness :
    getAttr (cleanElemAttrs "img" [("data-src", "https://ex.com/lazy.jpg")]) "src" = none ∧
    getAttr (cleanElemAttrs "div" [("data-src", "https://ex.com/lazy.jpg")]) "data-src" = none :=
  ⟨cleanAttributes_img_src_not_promoted.1 [("data-src", "https://ex.com/lazy.jpg")] rfl,
   cleanAttributes_img_src_not_promoted.2 "div" [("data-src", "https://ex.com/lazy.jpg")]⟩



/-! ### Sanitizer output (claim C8) -/

mutual
theorem nodeAll_mono (p q : String → List (String × String) → Bool)
    (hpq : ∀ t a, p t a = true → q t a = true) (n : Node) (hn : nodeAll p n = true) :
    nodeAll q n = true :=
  match n with
  | .text _ => rfl
  | .elem t a c => by
    simp only [nodeAll, Bool.and_eq_true] at hn ⊢
    exact ⟨hpq t a hn.1, forestAll_mono p q hpq c hn.2⟩
theorem forestAll_mono (p q : String → List (String × String) → Bool)
    (hpq : ∀ t a, p t a = true → q t a = true) (ns : NodeList)
    (hns : forestAll p ns = true) : forestAll q ns = true :=
  match ns with
  | .nil => rfl
  | .cons n ns => by
    simp only [forestAll, Bool.and_eq_true] at hns ⊢
    exact ⟨nodeAll_mono p q hpq n hns.1, forestAll_mono p q hpq ns hns.2⟩
end

mutual
theorem nodeAll_and_intro (p q : String → List (String × String) → Bool) (n : Node)
    (hp : nodeAll p n = true) (hq : nodeAll q n = true) :
    nodeAll (fun t a => p t a && q t a) n = true :=
  match n with
  | .text _ => rfl
  | .elem t a c => by
    simp only [nodeAll, Bool.and_eq_true] at hp hq ⊢
    exact ⟨⟨hp.1, hq.1⟩, forestAll_and_intro p q c hp.2 hq.2⟩
theorem forestAll_and_intro (p q : String → List (String × String) → Bool) (ns : NodeList)
    (hp : forestAll p ns = true) (hq : forestAll q ns = true) :
    forestAll (fun t a => p t a && q t a) ns = true :=
  match ns with
  | .nil => rfl
  | .cons n ns => by
    simp only [forestAll, Bool.and_eq_true] at hp hq ⊢
    exact ⟨nodeAll_and_intro p q n hp.1 hq.1, forestAll_and_intro p q ns hp.2 hq.2⟩
end

mutual
theorem removeBySelectorsN_ok (n : Node) (acc : NodeList)
    (hacc : forestAll (fun t a => !matchesRemoval t a) acc = true) :
    forestAll (fun t a => !matchesRemoval t a) (removeBySelectorsN n acc) = true :=
  match n with
  | .text s => by
    simp only [removeBySelectorsN, forestAll, nodeAll, Bool.true_and]
    exact hacc
  | .elem t a c => by
    rw [removeBySelectorsN]
    split
    · exact hacc
    · next hm =>
      simp only [forestAll, nodeAll, Bool.and_eq_true]
      refine ⟨⟨?_, removeBySelectorsL_ok c⟩, hacc⟩
      simp only [Bool.not_eq_true']
      exact Bool.not_eq_true _ ▸ Bool.eq_false_iff.mpr hm
theorem removeBySelectorsL_ok (ns : NodeList) :
    forestAll (fun t a => !matchesRemoval t a) (removeBySelectorsL ns) = true :=
  match ns with
  | .nil => rfl
  | .cons n ns => removeBySelectorsN_ok n (removeBySelectorsL ns) (removeBySelectorsL_ok ns)
end

mutual
theorem removeEmptyN_preserves (p : String → List (String × String) → Bool) (n : Node)
    (acc : NodeList) (hn : nodeAll p n = true) (hacc : forestAll p acc = true) :
    forestAll p (removeEmptyN n acc) = true :=
  match n with
  | .text s => by
    simp only [removeEmptyN, forestAll, nodeAll, Bool.true_and]
    exact hacc
  | .elem t a c => by
    rw [removeEmptyN]
    split
    · simp only [nodeAll, Bool.and_eq_true] at hn
      simp only [forestAll, nodeAll, Bool.and_eq_true]
      exact ⟨⟨hn.1, removeEmptyL_preserves p c hn.2⟩, hacc⟩
    · exact hacc
theorem removeEmptyL_preserves (p : String → List (String × String) → Bool) (ns : NodeList)
    (hns : forestAll p ns = true) : forestAll p (removeEmptyL ns) = true :=
  match ns with
  | .nil => rfl
  | .cons n ns => by
    simp only [forestAll, Bool.and_eq_true] at hns
    exact removeEmptyN_preserves p n (removeEmptyL ns) hns.1 (removeEmptyL_preserves p ns hns.2)
end

mutual
theorem cleanAttributesN_establishes (p : String → List (String × String) → Bool)
    (hp : ∀ t a, p t (cleanElemAttrs t a) = true) (n : Node) :
    nodeAll p (cleanAttributesN n) = true :=
  match n with
  | .text _ => rfl
  | .elem t a c => by
    simp only [cleanAttributesN, nodeAll, Bool.and_eq_true]
    exact ⟨hp t a, cleanAttributesL_establishes p hp c⟩
theorem cleanAttributesL_establishes (p : String → List (String × String) → Bool)
    (hp : ∀ t a, p t (cleanElemAttrs t a) = true) (ns : NodeList) :
    forestAll p (cleanAttributesL ns) = true :=
  match ns with
  | .nil => rfl
  | .cons n ns => by
    simp only [cleanAttributesL, forestAll, Bool.and_eq_true]
    exact ⟨cleanAttributesN_establishes p hp n, cleanAttributesL_establishes p hp ns⟩
end

mutual
theorem cleanAttributesN_preserves_tags (q : String → Bool) (n : Node)
    (hn : nodeAll (fun t _ => q t) n = true) :
    nodeAll (fun t _ => q t) (cleanAttributesN n) = true :=
  match n with
  | .text _ => rfl
  | .elem t a c => by
    simp only [cleanAttributesN, nodeAll, Bool.and_eq_true] at hn ⊢
    exact ⟨hn.1, cleanAttributesL_preserves_tags q c hn.2⟩
theorem cleanAttributesL_preserves_tags (q : String → Bool) (ns : NodeList)
    (hns : forestAll (fun t _ => q t) ns = true) :
    forestAll (fun t _ => q t) (cleanAttributesL ns) = true :=
  match ns with
  | .nil => rfl
  | .cons n ns => by
    simp only [cleanAttributesL, forestAll, Bool.and_eq_true] at hns ⊢
    exact ⟨cleanAttributesN_preserves_tags q n hns.1, cleanAttributesL_preserves_tags q ns hns.2⟩
end

/-- The four tags of the claim all match a removal selector. -/
theorem matchesRemoval_of_claim_tag (t : String) (attrs : List (String × String))
    (h : (["script", "style", "nav", "footer"].contains t) = true) :
    matchesRemoval t attrs = true := by
  have h' : t ∈ ["script", "style", "nav", "footer"] := by
    have := List.elem_iff.mp h
    simpa using this
  simp only [List.mem_cons, List.not_mem_nil, or_false] at h'
  rcases h' with rfl | rfl | rfl | rfl
  · exact List.any_eq_true.mpr ⟨"script", by decide, rfl⟩
  · exact List.any_eq_true.mpr ⟨"style", by decide, rfl⟩
  · exact List.any_eq_true.mpr ⟨"nav", by decide, rfl⟩
  · exact List.any_eq_true.mpr ⟨"footer", by decide, rfl⟩

/-- `setAttr` preserves an all-names property when the inserted name has it. -/
theorem setAttr_allNames (attrs : List (String × String)) (n v : String) (P : String → Bool)
    (h : attrs.all (fun p => P p.1) = true) (hn : P n = true) :
    (setAttr attrs n v).all (fun p => P p.1) = true := by
  unfold setAttr
  split
  · rw [List.all_eq_true] at h ⊢
    intro x hx
    obtain ⟨y, hy, hyx⟩ := List.mem_map.mp hx
    by_cases hyn : y.1 = n
    · rw [if_pos hyn] at hyx
      rw [← hyx]
      exact hn
    · rw [if_neg hyn] at hyx
      rw [← hyx]
      exact h y hy
  · rw [List.all_eq_true] at h ⊢
    intro x hx
    rcases List.mem_append.mp hx with hx1 | hx2
    · exact h x hx1
    · rw [List.mem_singleton.mp hx2]
      exact hn

/-- Weaken an all-names property pointwise. -/
theorem allNames_imp (attrs : List (String × String)) (P Q : String → Bool)
    (h : ∀ n, P n = true → Q n = true) (hall : attrs.all (fun p => P p.1) = true) :
    attrs.all (fun p => Q p.1) = true := by
  rw [List.all_eq_true] at hall ⊢
  exact fun x hx => h x.1 (hall x hx)

/-- Elements of a name-filtered attribute list satisfy the name property. -/
theorem filter_allNames (attrs : List (String × String)) (P : String → Bool) :
    (attrs.filter (fun p => P p.1)).all (fun p => P p.1) = true := by
  rw [List.all_eq_true]
  intro x hx
  exact (List.mem_filter.mp hx).2

/-- `keepGenericAttr` names satisfy the generic attribute condition. -/
theorem keepGeneric_imp_ok (n : String) (hn : keepGenericAttr n = true) :
    ((fun m => !(startsWithStr m "data-" && m != "data-testid")
      && !(startsWithStr m "aria-") && !(startsWithStr m "on")) n) = true := by
  simp only [keepGenericAttr, decide_eq_true_eq] at hn
  push_neg at hn
  obtain ⟨h1, h2, h3⟩ := hn
  simp only [Bool.and_eq_true, Bool.not_eq_true']
  refine ⟨⟨?_, ?_⟩, ?_⟩
  · by_cases hd : startsWithStr n "data-" = true
    · have ht := h1 hd
      simp [ht]
    · simp [Bool.eq_false_iff.mpr hd]
  · exact Bool.eq_false_iff.mpr h2
  · exact Bool.eq_false_iff.mpr h3

/-- A `keepGenericAttr`-filtered attribute list satisfies `genericAttrsOk`. -/
theorem genericAttrsOk_of_keepFilter (l : List (String × String))
    (hl : l.all (fun p => keepGenericAttr p.1) = true) : genericAttrsOk l = true :=
  allNames_imp l keepGenericAttr
    (fun m => !(startsWithStr m "data-" && m != "data-testid")
      && !(startsWithStr m "aria-") && !(startsWithStr m "on"))
    keepGeneric_imp_ok hl

/-- The cleaned attribute list of any element satisfies the claimed
attribute property. -/
theorem cleanElemAttrs_ok (t : String) (attrs : List (String × String)) :
    attrsClaimOk t (cleanElemAttrs t attrs) = true := by
  by_cases ha : t = "a"
  · subst ha
    have hnames : ∀ l : List (String × String),
        l.all (fun p => p.1 == "href" || p.1 == "title") = true → attrsClaimOk "a" l = true := by
      intro l hl
      have hgen : genericAttrsOk l = true := by
        refine allNames_imp l (fun m => m == "href" || m == "title")
          (fun m => !(startsWithStr m "data-" && m != "data-testid")
            && !(startsWithStr m "aria-") && !(startsWithStr m "on"))
          (fun n hn => ?_) hl
        rcases Bool.or_eq_true_iff.mp hn with h | h
        · rw [show n = "href" from beq_iff_eq.mp h]
          decide
        · rw [show n = "title" from beq_iff_eq.mp h]
          decide
      unfold attrsClaimOk
      rw [if_pos rfl, if_neg (by decide), hgen, hl]
      rfl
    have hA2 : ((attrs.filter (fun p => keepGenericAttr p.1)).filter
        (fun p => decide (p.1 = "href" ∨ p.1 = "title"))).all
        (fun p => p.1 == "href" || p.1 == "title") = true := by
      refine allNames_imp _ (fun m => decide (m = "href" ∨ m = "title"))
        (fun m => m == "href" || m == "title") (fun n hn => ?_)
        (filter_allNames _ (fun m => decide (m = "href" ∨ m = "title")))
      simp only [decide_eq_true_eq] at hn
      simp only [Bool.or_eq_true, beq_iff_eq]
      exact hn
    simp only [cleanElemAttrs]
    rw [if_pos trivial]
    split
    · exact hnames _ (setAttr_allNames _ "href" _
        (fun m => m == "href" || m == "title") hA2 (by decide))
    · exact hnames _ hA2
  · by_cases hi : t = "img"
    · subst hi
      have hnames : ∀ l : List (String × String),
          l.all (fun p => p.1 == "src" || p.1 == "alt") = true →
          attrsClaimOk "img" l = true := by
        intro l hl
        have hgen : genericAttrsOk l = true := by
          refine allNames_imp l (fun m => m == "src" || m == "alt")
            (fun m => !(startsWithStr m "data-" && m != "data-testid")
              && !(startsWithStr m "aria-") && !(startsWithStr m "on"))
            (fun n hn => ?_) hl
          rcases Bool.or_eq_true_iff.mp hn with h | h
          · rw [show n = "src" from beq_iff_eq.mp h]
            decide
          · rw [show n = "alt" from beq_iff_eq.mp h]
            decide
        unfold attrsClaimOk
        rw [if_neg (by decide), if_pos rfl, hgen, hl]
        rfl
      have hA2 : ((attrs.filter (fun p => keepGenericAttr p.1)).filter
          (fun p => decide (p.1 = "src" ∨ p.1 = "alt"))).all
          (fun p => p.1 == "src" || p.1 == "alt") = true := by
        refine allNames_imp _ (fun m => decide (m = "src" ∨ m = "alt"))
          (fun m => m == "src" || m == "alt") (fun n hn => ?_)
          (filter_allNames _ (fun m => decide (m = "src" ∨ m = "alt")))
        simp only [decide_eq_true_eq] at hn
        simp only [Bool.or_eq_true, beq_iff_eq]
        exact hn
      simp only [cleanElemAttrs]
      rw [if_neg (by decide), if_pos trivial]
      split
      · split
        · exact hnames _ (setAttr_allNames _ "alt" _
            (fun m => m == "src" || m == "alt")
            (setAttr_allNames _ "src" _ (fun m => m == "src" || m == "alt") hA2 (by decide))
            (by decide))
        · exact hnames _ (setAttr_allNames _ "alt" _
            (fun m => m == "src" || m == "alt") hA2 (by decide))
      · split
        · exact hnames _ (setAttr_allNames _ "src" _
            (fun m => m == "src" || m == "alt") hA2 (by decide))
        · exact hnames _ hA2
    · simp only [cleanElemAttrs]
      rw [if_neg ha, if_neg hi]
      unfold attrsClaimOk
      rw [if_neg ha, if_neg hi]
      simp only [Bool.and_true]
      exact genericAttrsOk_of_keepFilter _ (filter_allNames attrs (fun m => keepGenericAttr m))

/-- C8: for every document and content selector, the forest serialized by
`cleanHtml` contains no `script`, `style`, `nav` or `footer` element, no
`data-*` attribute other than `data-testid`, no `aria-*` or `on*`
attribute, and every anchor carries only `href`/`title` while every image
carries only `src`/`alt`. -/
theorem cleanHtml_output_sanitized (doc : NodeList) (sel : String) :
    forestAll sanitizedElemOk (cleanForest doc sel) = true := by
  unfold cleanForest
  cases hq : (queryStr sel doc).head? with
  | none => rfl
  | some container =>
    have h1 := removeBySelectorsL_ok container.childrenOf
    have h2 : forestAll (fun t _ => !(["script", "style", "nav", "footer"].contains t))
        (removeBySelectorsL container.childrenOf) = true := by
      refine forestAll_mono _ _ (fun t a h => ?_) _ h1
      simp only [Bool.not_eq_true'] at h ⊢
      exact Bool.eq_false_iff.mpr (fun hc =>
        (Bool.eq_false_iff.mp h) (matchesRemoval_of_claim_tag t a hc))
    have h3 := removeEmptyL_preserves _ _ h2
    have h4 := cleanAttributesL_preserves_tags
      (fun t => !(["script", "style", "nav", "footer"].contains t)) _ h3
    have h5 := cleanAttributesL_establishes attrsClaimOk cleanElemAttrs_ok
      (removeEmptyL (removeBySelectorsL container.childrenOf))
    have h6 := forestAll_and_intro _ _ _ h4 h5
    refine forestAll_mono _ _ (fun t a h => ?_) _ h6
    unfold sanitizedElemOk
    exact h






/-! ### Article invariants (claim C9) -/

theorem tagsLoop_eq_dedup (texts : List String) (seen : List String) :
    tagsLoop texts seen =
      dedupFirstAux seen ((texts.map (fun s => lowerStr (trimStr s))).filter
        (fun t => t ≠ "" && strLen t < 50)) := by
  induction texts generalizing seen with
  | nil => rfl
  | cons s rest ih =>
    simp only [tagsLoop, List.map_cons, List.filter_cons]
    by_cases hT : lowerStr (trimStr s) ≠ "" ∧ strLen (lowerStr (trimStr s)) < 50
    · rw [if_pos (show (decide (lowerStr (trimStr s) ≠ "")
          && decide (strLen (lowerStr (trimStr s)) < 50)) = true by
          simp only [Bool.and_eq_true, decide_eq_true_eq]
          exact ⟨hT.1, hT.2⟩)]
      simp only [dedupFirstAux]
      by_cases hc : seen.contains (lowerStr (trimStr s)) = true
      · rw [if_pos hc, if_neg (fun hx => hx.2.1 hc)]
        exact ih seen
      · rw [if_neg hc, if_pos ⟨hT.1, hc, hT.2⟩]
        exact congrArg _ (ih _)
    · rw [if_neg (show ¬ ((decide (lowerStr (trimStr s) ≠ "")
            && decide (strLen (lowerStr (trimStr s)) < 50)) = true) by
          simp only [Bool.and_eq_true, decide_eq_true_eq]
          exact fun hx => hT hx),
        if_neg (fun hx => hT ⟨hx.1, hx.2.2⟩)]
      exact ih seen

theorem extractTags_eq_dedup (doc : NodeList) :
    extractTags doc = dedupFirstAux [] (tagCandidates doc) :=
  tagsLoop_eq_dedup (tagTexts doc) []

theorem dedupFirstAux_mem (xs : List String) (seen : List String) (x : String)
    (hx : x ∈ dedupFirstAux seen xs) : x ∈ xs ∧ x ∉ seen := by
  induction xs generalizing seen with
  | nil => cases hx
  | cons y ys ih =>
    simp only [dedupFirstAux] at hx
    split at hx
    · exact ⟨List.mem_cons_of_mem _ (ih _ hx).1, (ih _ hx).2⟩
    · next hc =>
      rcases List.mem_cons.mp hx with rfl | hx2
      · refine ⟨List.mem_cons_self _ _, fun hxs => hc ?_⟩
        exact List.elem_eq_true_of_mem hxs
      · have h2 := ih _ hx2
        exact ⟨List.mem_cons_of_mem _ h2.1, fun hxs => h2.2 (List.mem_cons_of_mem y hxs)⟩

theorem dedupFirstAux_nodup (xs : List String) (seen : List String) :
    (dedupFirstAux seen xs).Nodup := by
  induction xs generalizing seen with
  | nil => exact List.nodup_nil
  | cons y ys ih =>
    simp only [dedupFirstAux]
    split
    · exact ih seen
    · refine List.Nodup.cons ?_ (ih _)
      intro hy
      exact (dedupFirstAux_mem _ _ _ hy).2 (List.mem_cons_self _ _)

theorem extractTags_props (doc : NodeList) (t : String) (ht : t ∈ extractTags doc) :
    lowerStr t = t ∧ t ≠ "" ∧ strLen t < 50 := by
  rw [extractTags_eq_dedup] at ht
  have hmem := (dedupFirstAux_mem _ _ _ ht).1
  obtain ⟨ht1, ht2⟩ := List.mem_filter.mp hmem
  obtain ⟨s0, _, hts⟩ := List.mem_map.mp ht1
  simp only [Bool.and_eq_true, decide_eq_true_eq] at ht2
  refine ⟨?_, ht2.1, ht2.2⟩
  rw [← hts]
  exact lowerStr_idem (trimStr s0)

theorem extractMetadata_ok_tags {doc : NodeList} {url now : String} {md : Metadata}
    (h : extractMetadata doc url now = .ok md) :
    md.tags = (if 0 < (extractTags doc).length then some (extractTags doc) else none) := by
  replace h : (if jsTruthy (extractWithSelectors doc titleSelectors) = true then
        Except.ok (⟨url, (extractWithSelectors doc titleSelectors).getD "",
          extractWithSelectors doc subtitleSelectors,
          (if jsTruthy (extractWithSelectors doc authorSelectors) = true then
            (extractWithSelectors doc authorSelectors).getD "" else "Unknown Author"),
          extractPublishedDate doc now,
          (extractWithSelectors doc readingTimeSelectors).bind matchMin,
          (if 0 < (extractTags doc).length then some (extractTags doc) else none)⟩ : Metadata)
      else Except.error ErrorCode.PARSE_ERROR) = Except.ok md := h
  split at h
  · injection h with h
    subst h
    rfl
  · exact Except.noConfusion h

theorem downloadImage_size (f : String → ImgFetchOutcome) (url s : String)
    (h : downloadImage f url = some s) :
    ∃ ct bytes, s = "data:" ++ ct ++ ";base64," ++ base64Encode bytes ∧
      bytes.length ≤ MAX_IMAGE_SIZE_BYTES := by
  unfold downloadImage at h
  split at h
  · exact Option.noConfusion h
  · split at h
    · exact Option.noConfusion h
    · split at h
      · exact Option.noConfusion h
      · split at h
        · exact Option.noConfusion h
        · split at h
          · exact Option.noConfusion h
          · split at h
            · exact Option.noConfusion h
            · injection h with h
              exact ⟨_, _, h.symm, by omega⟩

/-- C9: a successfully scraped article has at most 50 images; every image
with a defined `base64` is a data URI of a body of at most 5 MiB; the
content is non-empty; and the tags, when present, are a non-empty
first-encounter-ordered deduplication of the trimmed lower-cased tag
candidates, each non-empty, lower-case, shorter than 50 characters, with no
case-insensitive duplicates. -/
theorem scrapeArticle_invariants (doc : NodeList) (url now : String)
    (f : String → ImgFetchOutcome) (a : Article)
    (h : scrapeParsed doc url now f = .ok a) :
    a.images.length ≤ 50 ∧
    (∀ img, img ∈ a.images → ∀ s, img.base64 = some s →
      ∃ ct bytes, s = "data:" ++ ct ++ ";base64," ++ base64Encode bytes ∧
        bytes.length ≤ MAX_IMAGE_SIZE_BYTES) ∧
    a.content ≠ "" ∧
    (∀ l, a.tags = some l →
      l ≠ [] ∧ l = dedupFirstAux [] (tagCandidates doc) ∧
      (∀ t ∈ l, lowerStr t = t ∧ t ≠ "" ∧ strLen t < 50) ∧
      (l.map lowerStr).Nodup) := by
  obtain ⟨hcontent, hne, himgs, md, hmd, htags⟩ := scrapeParsed_ok_elim h
  refine ⟨?_, ?_, hne, ?_⟩
  · rw [himgs]
    unfold downloadAllImages
    rw [List.length_map, List.length_take]
    exact le_trans (Nat.min_le_left _ _) (by simp [MAX_IMAGES_PER_ARTICLE])
  · intro img himg s hs
    rw [himgs] at himg
    unfold downloadAllImages at himg
    obtain ⟨c, _, hc⟩ := List.mem_map.mp himg
    rw [← hc] at hs
    exact downloadImage_size f c.url s hs
  · intro l hl
    rw [htags, extractMetadata_ok_tags hmd] at hl
    split at hl
    · next hpos =>
      injection hl with hl
      subst hl
      refine ⟨?_, extractTags_eq_dedup doc, fun t ht => extractTags_props doc t ht, ?_⟩
      · intro hnil
        rw [hnil] at hpos
        simp at hpos
      · have hfix : (extractTags doc).map lowerStr = extractTags doc := by
          rw [show (extractTags doc).map lowerStr = (extractTags doc).map id from
            List.map_congr_left (fun t ht => (extractTags_props doc t ht).1), List.map_id]
        rw [hfix, extractTags_eq_dedup]
        exact dedupFirstAux_nodup _ _
    · exact Option.noConfusion hl


/-- Witness for C9 at a concrete successful scrape with tags. -/
theorem scrapeArticle_invariants_witness :
    cexArticleC9.content ≠ "" ∧ cexArticleC9.images.length ≤ 50 :=
  ⟨(scrapeArticle_invariants cexDocC9 "u" "NOW" fetchAllThrow cexArticleC9 rfl).2.2.1,
   (scrapeArticle_invariants cexDocC9 "u" "NOW" fetchAllThrow cexArticleC9 rfl).1⟩

end Medbook
